import Mathlib

/-!
Shallow embedding of the user-record CRUD service
(`src/app.js` route handlers and `src/unnamed/part_000`, the
`utils/validations.js` module) and proofs about the spec's claims.

JavaScript runtime values that the service manipulates are modelled by
`JsValue`; JS numbers are modelled on the integer-or-NaN fragment
(`JsNum`), which covers every value the validation and id-coercion
logic distinguishes in the claims under study.
-/

namespace ExpressUsers

/-- JS numbers restricted to the integer-or-NaN fragment.  Finite
non-integer doubles do not occur in the properties studied here. -/
inductive JsNum where
  | nan : JsNum
  | int : Int → JsNum
deriving DecidableEq, Repr

/-- Strict equality `===` on JS numbers: `NaN` is equal to nothing,
including itself. -/
def numEq : JsNum → JsNum → Bool
  | .int m, .int n => m == n
  | _, _ => false

/-- JS comparison `a <= b` on numbers: any comparison involving `NaN`
is false. -/
def jsLe : JsNum → JsNum → Bool
  | .int m, .int n => m ≤ n
  | _, _ => false

/-- The JS runtime values reaching the service: strings, numbers,
booleans, `null` and `undefined` (a JSON body field that is absent
destructures to `undefined`). -/
inductive JsValue where
  | vStr : String → JsValue
  | vNum : JsNum → JsValue
  | vBool : Bool → JsValue
  | vNull : JsValue
  | vUndefined : JsValue
deriving DecidableEq, Repr

/-- JS whitespace, modelled on the ASCII fragment. -/
def isSpaceChar (c : Char) : Bool :=
  c == ' ' || c == '\t' || c == '\n' || c == '\r'

/-- `String.prototype.trim`: strip leading and trailing whitespace. -/
def trimChars (cs : List Char) : List Char :=
  ((cs.dropWhile isSpaceChar).reverse.dropWhile isSpaceChar).reverse

/-- The value of a non-empty all-digit character sequence, `none`
otherwise. -/
def parseNatChars (cs : List Char) : Option Nat :=
  if !cs.isEmpty && cs.all (fun c => c.isDigit) then
    some (cs.foldl (fun acc c => acc * 10 + (c.toNat - 48)) 0)
  else
    none

/-- `Number(s)` for a string, modelled on the fragment the service
meets: after trimming, the empty string is `0`, an optionally signed
decimal integer literal is its value, and every other string is `NaN`
(fractional, exponent and hex literals do not occur in the claims). -/
def strToNum (s : String) : JsNum :=
  match trimChars s.data with
  | [] => .int 0
  | '-' :: rest =>
    match parseNatChars rest with
    | some n => .int (-(n : Int))
    | none => .nan
  | '+' :: rest =>
    match parseNatChars rest with
    | some n => .int (n : Int)
    | none => .nan
  | t =>
    match parseNatChars t with
    | some n => .int (n : Int)
    | none => .nan

/-- JS `Number(v)` coercion. -/
def toNumber : JsValue → JsNum
  | .vStr s => strToNum s
  | .vNum n => n
  | .vBool b => .int (if b then 1 else 0)
  | .vNull => .int 0
  | .vUndefined => .nan

/-- JS truthiness: `""`, `0`, `NaN`, `false`, `null`, `undefined` are
falsy, everything else here is truthy. -/
def truthy : JsValue → Bool
  | .vStr s => !(s == "")
  | .vNum (.int n) => !(n == 0)
  | .vNum .nan => false
  | .vBool b => b
  | .vNull => false
  | .vUndefined => false

/-- `typeof v === 'string'`. -/
def isString : JsValue → Bool
  | .vStr _ => true
  | _ => false

/-- `typeof v === 'number'` (`NaN` is a number). -/
def isNumber : JsValue → Bool
  | .vNum _ => true
  | _ => false

/-- Strict equality `===` on JS values: no type coercion, `NaN` equal
to nothing. -/
def jsEq : JsValue → JsValue → Bool
  | .vStr a, .vStr b => a == b
  | .vNum a, .vNum b => numEq a b
  | .vBool a, .vBool b => a == b
  | .vNull, .vNull => true
  | .vUndefined, .vUndefined => true
  | _, _ => false

/-- The `{isValid, error}` result shape returned by every validator in
`utils/validations.js`. -/
structure ValidationResult where
  isValid : Bool
  error : Option String
deriving DecidableEq, Repr

/-- The `{exists, error}` result shape returned by `checkUserExists`
and `checkEmailInUse` (the source's field `exists` is a Lean keyword,
hence `existsFlag`). -/
structure ExistsResult where
  existsFlag : Bool
  error : Option String
deriving DecidableEq, Repr

/-- A user record `{id, name, email, age}`.  A field that is absent in
the underlying JSON object is `vUndefined`. -/
structure User where
  id : JsValue
  name : JsValue
  email : JsValue
  age : JsValue
deriving DecidableEq, Repr

/-- Reading a field of a JS object that the object does not carry
yields `undefined`; this record plays that role for out-of-bounds
array accesses. -/
def User.undef : User :=
  ⟨.vUndefined, .vUndefined, .vUndefined, .vUndefined⟩

/-- The `{name, email, age}` partial-update payload destructured from
the request body by the PUT handler; an absent field is `vUndefined`. -/
structure UserUpdate where
  name : JsValue
  email : JsValue
  age : JsValue
deriving DecidableEq, Repr

/-- The reduced `{id, name, email}` view of a deleted record returned
by the DELETE handler (no `age` field exists in this shape). -/
structure DeletedView where
  id : JsValue
  name : JsValue
  email : JsValue
deriving DecidableEq, Repr

/-- The four field names of a user record. -/
inductive Field where
  | id | name | email | age
deriving DecidableEq, Repr

/-- Dynamic field access `user[field]`. -/
def User.get : User → Field → JsValue
  | u, .id => u.id
  | u, .name => u.name
  | u, .email => u.email
  | u, .age => u.age

/-- `user[field] !== undefined && user[field] !== null`. -/
def present (v : JsValue) : Bool :=
  !(v == .vUndefined) && !(v == .vNull)

/-- `validateRequiredFields({id, name, email, age})`: fails when any of
`id`, `name`, `email` is falsy or `age` is not a number. -/
def validateRequiredFields (userData : User) : ValidationResult :=
  if !truthy userData.id || !truthy userData.name || !truthy userData.email
      || !isNumber userData.age then
    ⟨false, some "Missing or invalid fields. Required: id, name, email, age (number)"⟩
  else
    ⟨true, none⟩

/-- `validateName(name)`: fails when not a string or the trimmed length
is below 2. -/
def validateName (name : JsValue) : ValidationResult :=
  match name with
  | .vStr s =>
    if (trimChars s.data).length < 2 then
      ⟨false, some "Name must be at least 2 characters long"⟩
    else
      ⟨true, none⟩
  | _ => ⟨false, some "Name must be at least 2 characters long"⟩

/-- `validateAge(age)`: fails when not a number or `age <= 0` (note
`NaN <= 0` is false in JS, mirrored by `jsLe`). -/
def validateAge (age : JsValue) : ValidationResult :=
  match age with
  | .vNum n =>
    if jsLe n (.int 0) then
      ⟨false, some "Age must be a positive number"⟩
    else
      ⟨true, none⟩
  | _ => ⟨false, some "Age must be a positive number"⟩

/-- Split a character sequence at every occurrence of `sep` (the
separators are dropped, empty parts kept). -/
def splitAtChar (sep : Char) : List Char → List (List Char)
  | [] => [[]]
  | c :: rest =>
    let parts := splitAtChar sep rest
    if c == sep then
      [] :: parts
    else
      match parts with
      | p :: ps => (c :: p) :: ps
      | [] => [[c]]

/-- The test of the regex `/^[^\s@]+@[^\s@]+\.[^\s@]+$/`: the string is
`l@m.r` with `l`, `m`, `r` non-empty and free of whitespace and `@`
(modelled on ASCII whitespace).  Splitting at `@` must give exactly two
parts, both non-empty and whitespace-free, and the part after the `@`
must contain a dot that is neither its first nor its last character. -/
def emailRegexTest (email : String) : Bool :=
  match splitAtChar '@' email.data with
  | [localPart, domainPart] =>
    !localPart.isEmpty && localPart.all (fun c => !isSpaceChar c) &&
    !domainPart.isEmpty && domainPart.all (fun c => !isSpaceChar c) &&
    ((domainPart.drop 1).dropLast.contains '.')
  | _ => false

/-- `validateEmail(email)`: fails when not a string or the regex does
not match. -/
def validateEmail (email : JsValue) : ValidationResult :=
  match email with
  | .vStr s =>
    if emailRegexTest s then ⟨true, none⟩
    else ⟨false, some "Invalid email format"⟩
  | _ => ⟨false, some "Invalid email format"⟩

/-- The default `requiredFields` argument of `validateUsersData`. -/
def defaultRequiredFields : List Field :=
  [.id, .name, .email, .age]

/-- The parsed JSON value handed to `validateUsersData`: either an
array of user records or some non-array value. -/
inductive UsersData where
  | arr : List User → UsersData
  | nonArray : UsersData
deriving DecidableEq, Repr

/-- `validateUsersData(usersData, requiredFields)`: `No users found`
when not a non-empty array; `Invalid user data detected` when some
record is missing (undefined or null) a required field. -/
def validateUsersData (usersData : UsersData) (requiredFields : List Field) :
    ValidationResult :=
  match usersData with
  | .nonArray => ⟨false, some "No users found"⟩
  | .arr users =>
    if users.length = 0 then ⟨false, some "No users found"⟩
    else
      let invalidUsers := users.filter
        (fun user => !(requiredFields.all (fun field => present (user.get field))))
      if invalidUsers.length > 0 then
        ⟨false, some "Invalid user data detected"⟩
      else
        ⟨true, none⟩

/-- `checkUserExists(usersData, id, email)`: some record's id or email
strictly equals the given one. -/
def checkUserExists (usersData : List User) (id email : JsValue) : ExistsResult :=
  if usersData.any (fun user => jsEq user.id id || jsEq user.email email) then
    ⟨true, some "User with this id or email already exists"⟩
  else
    ⟨false, none⟩

/-- `Array.prototype.some` with the element index supplied to the
predicate, starting from index `start`. -/
def someWithIndex (p : User → Nat → Bool) : List User → Nat → Bool
  | [], _ => false
  | u :: rest, start => p u start || someWithIndex p rest (start + 1)

/-- `checkEmailInUse(usersData, email, excludeIndex)`: some record at a
position other than `excludeIndex` has the given email. -/
def checkEmailInUse (usersData : List User) (email : JsValue)
    (excludeIndex : Nat) : ExistsResult :=
  if someWithIndex
      (fun user idx => jsEq user.email email && !(idx == excludeIndex))
      usersData 0 then
    ⟨true, some "Email already in use by another user"⟩
  else
    ⟨false, none⟩

/-- `validateUserForCreation(userData)`: required fields, then name,
then age, then email, returning the first failure. -/
def validateUserForCreation (userData : User) : ValidationResult :=
  let requiredValidation := validateRequiredFields userData
  if !requiredValidation.isValid then requiredValidation
  else
    let nameValidation := validateName userData.name
    if !nameValidation.isValid then nameValidation
    else
      let ageValidation := validateAge userData.age
      if !ageValidation.isValid then ageValidation
      else
        let emailValidation := validateEmail userData.email
        if !emailValidation.isValid then emailValidation
        else ⟨true, none⟩

/-- `validateUserForUpdate(userData)`: each of name, email, age is
validated only when present (not `undefined`), in that order, returning
the first failure. -/
def validateUserForUpdate (userData : UserUpdate) : ValidationResult :=
  if userData.name != .vUndefined && !(validateName userData.name).isValid then
    validateName userData.name
  else if userData.email != .vUndefined && !(validateEmail userData.email).isValid then
    validateEmail userData.email
  else if userData.age != .vUndefined && !(validateAge userData.age).isValid then
    validateAge userData.age
  else
    ⟨true, none⟩

/-- `validateUserId(id)`: falsy or non-string-non-number ids fail with
the first message; ids whose `Number()` coercion is `NaN` or `<= 0`
fail with the second. -/
def validateUserId (id : JsValue) : ValidationResult :=
  if !truthy id || (!isString id && !isNumber id) then
    ⟨false, some "User ID is required and must be a string or number"⟩
  else
    match toNumber id with
    | .nan => ⟨false, some "User ID must be a valid positive number"⟩
    | .int n =>
      if n ≤ 0 then ⟨false, some "User ID must be a valid positive number"⟩
      else ⟨true, none⟩

/-- `Array.prototype.findIndex`: index of the first element satisfying
the predicate. -/
def findIndexAux (p : User → Bool) : List User → Option Nat
  | [] => none
  | u :: rest => if p u then some 0 else (findIndexAux p rest).map (· + 1)

/-- `usersData.findIndex(user => Number(user.id) === Number(userId))`,
as used by both the PUT and the DELETE handler; `none` models `-1`. -/
def locateUser (usersData : List User) (userId : JsValue) : Option Nat :=
  findIndexAux (fun user => numEq (toNumber user.id) (toNumber userId)) usersData

/-- Outcome of `app.post('/users')`: 400 with the validator's error,
409 with the existence check's error, or 201 with the written
collection and the created record. -/
inductive CreateResult where
  | badRequest : String → CreateResult
  | conflict : String → CreateResult
  | created : List User → User → CreateResult
deriving DecidableEq, Repr

/-- The `app.post('/users')` handler: validate via
`validateUserForCreation`, check `checkUserExists`, else push
`{id, name, email, age}` onto the collection and save it. -/
def createUser (usersData : List User) (body : User) : CreateResult :=
  let validation := validateUserForCreation body
  if !validation.isValid then
    .badRequest (validation.error.getD "")
  else
    let existsCheck := checkUserExists usersData body.id body.email
    if existsCheck.existsFlag then
      .conflict (existsCheck.error.getD "")
    else
      .created (usersData ++ [body]) body

/-- The collection on disk after a POST: the handler writes the file
only on the 201 path, so any rejection leaves the stored collection as
it was. -/
def collectionAfterCreate (usersData : List User) (body : User) : List User :=
  match createUser usersData body with
  | .created newData _ => newData
  | _ => usersData

/-- Outcome of `app.put('/users/:id')`: 400, 404, 409, or 200 with the
written collection and the updated record. -/
inductive UpdateResult where
  | badRequest : String → UpdateResult
  | notFound : UpdateResult
  | conflict : String → UpdateResult
  | updated : List User → User → UpdateResult
deriving DecidableEq, Repr

/-- `if (name !== undefined) usersData[userIndex].name = name`. -/
def applyNameUpdate (usersData : List User) (userIndex : Nat) (name : JsValue) :
    List User :=
  if name != .vUndefined then
    usersData.set userIndex { usersData.getD userIndex User.undef with name := name }
  else
    usersData

/-- `usersData[userIndex].email = email` when the email is present. -/
def applyEmailUpdate (usersData : List User) (userIndex : Nat) (email : JsValue) :
    List User :=
  if email != .vUndefined then
    usersData.set userIndex { usersData.getD userIndex User.undef with email := email }
  else
    usersData

/-- `if (age !== undefined) usersData[userIndex].age = age`. -/
def applyAgeUpdate (usersData : List User) (userIndex : Nat) (age : JsValue) :
    List User :=
  if age != .vUndefined then
    usersData.set userIndex { usersData.getD userIndex User.undef with age := age }
  else
    usersData

/-- The `app.put('/users/:id')` handler: validate the partial via
`validateUserForUpdate`, locate by numeric-coerced id equality, apply
name, check `checkEmailInUse` before applying email (rejecting 409 on
conflict, after the in-memory name write but before any save), apply
age, save, and respond with `usersData[userIndex]`. -/
def updateUser (usersData : List User) (userId : JsValue) (body : UserUpdate) :
    UpdateResult :=
  let validation := validateUserForUpdate body
  if !validation.isValid then
    .badRequest (validation.error.getD "")
  else
    match locateUser usersData userId with
    | none => .notFound
    | some userIndex =>
      let afterName := applyNameUpdate usersData userIndex body.name
      if body.email != .vUndefined &&
          (checkEmailInUse afterName body.email userIndex).existsFlag then
        .conflict ((checkEmailInUse afterName body.email userIndex).error.getD "")
      else
        let afterEmail := applyEmailUpdate afterName userIndex body.email
        let afterAge := applyAgeUpdate afterEmail userIndex body.age
        .updated afterAge (afterAge.getD userIndex User.undef)

/-- Outcome of `app.delete('/users/:id')`: 400, 404, or 200 with the
written collection and the reduced view of the deleted record. -/
inductive DeleteResult where
  | badRequest : String → DeleteResult
  | notFound : DeleteResult
  | deleted : List User → DeletedView → DeleteResult
deriving DecidableEq, Repr

/-- The `app.delete('/users/:id')` handler: validate the id via
`validateUserId`, locate by numeric-coerced id equality, splice the
record out, and respond with its `{id, name, email}` view. -/
def deleteUser (usersData : List User) (userId : JsValue) : DeleteResult :=
  let idValidation := validateUserId userId
  if !idValidation.isValid then
    .badRequest (idValidation.error.getD "")
  else
    match locateUser usersData userId with
    | none => .notFound
    | some userIndex =>
      let deletedUser := usersData.getD userIndex User.undef
      .deleted (usersData.eraseIdx userIndex)
        ⟨deletedUser.id, deletedUser.name, deletedUser.email⟩

/-- Outcome of `app.get('/users')`: the parsed file content, or a 404
(`No users found`) / 500 (`Invalid user data detected`) rejection. -/
inductive ListResult where
  | rejected : Nat → String → ListResult
  | okData : UsersData → ListResult
deriving DecidableEq, Repr

/-- The `app.get('/users')` handler: run `validateUsersData` with the
default required fields; on failure the status is 404 exactly when the
error is `No users found`, else 500; on success respond with the data
unchanged. -/
def listUsers (usersData : UsersData) : ListResult :=
  let validation := validateUsersData usersData defaultRequiredFields
  if !validation.isValid then
    .rejected (if validation.error == some "No users found" then 404 else 500)
      (validation.error.getD "")
  else
    .okData usersData

/-- The result of running checks in order and returning the first
failing one (`{isValid: true}` when all pass): the shape the spec
ascribes to `validateUserForCreation`. -/
def firstFailure : List ValidationResult → ValidationResult
  | [] => ⟨true, none⟩
  | r :: rs => if r.isValid then firstFailure rs else r

/-- No two records of the collection share an id or an email, under
strict JS equality: every record differs from every later record in
both fields. -/
def pairwiseDistinct : List User → Bool
  | [] => true
  | u :: rest =>
    rest.all (fun v => !jsEq u.id v.id && !jsEq u.email v.email) &&
    pairwiseDistinct rest

/-- A well-formed record with numeric id 1. -/
def alice : User :=
  ⟨.vNum (.int 1), .vStr "Alice", .vStr "alice@mail.com", .vNum (.int 30)⟩

/-- A well-formed record with numeric id 2. -/
def bob : User :=
  ⟨.vNum (.int 2), .vStr "Bob", .vStr "bob@mail.com", .vNum (.int 25)⟩

/-- A record whose id is the non-numeric string "abc". -/
def abcUser : User :=
  ⟨.vStr "abc", .vStr "Carol", .vStr "carol@mail.com", .vNum (.int 40)⟩

/-- A record with numeric id 5. -/
def eve5 : User :=
  ⟨.vNum (.int 5), .vStr "Eve", .vStr "eve@mail.com", .vNum (.int 28)⟩

/-- A record whose id is the string "5" (numerically equal to 5). -/
def bob5 : User :=
  ⟨.vStr "5", .vStr "Bobby", .vStr "bobby@mail.com", .vNum (.int 22)⟩

/-! ## Helper lemmas -/

theorem getD_set_self {α : Type} (l : List α) (i : Nat) (a d : α) (h : i < l.length) :
    (l.set i a).getD i d = a := by
  induction l generalizing i with
  | nil => simp at h
  | cons x xs ih =>
    cases i with
    | zero => rfl
    | succ n =>
      have := ih n (by simpa using h)
      simpa [List.set, List.getD_cons_succ] using this

theorem getD_set_ne {α : Type} (l : List α) (i j : Nat) (a d : α) (h : i ≠ j) :
    (l.set i a).getD j d = l.getD j d := by
  induction l generalizing i j with
  | nil => simp [List.set]
  | cons x xs ih =>
    cases i with
    | zero =>
      cases j with
      | zero => exact absurd rfl h
      | succ m => rfl
    | succ n =>
      cases j with
      | zero => rfl
      | succ m =>
        have := ih n m (fun hnm => h (by rw [hnm]))
        simpa [List.set, List.getD_cons_succ] using this

theorem getD_append_lt {α : Type} (l l₂ : List α) (i : Nat) (d : α) (h : i < l.length) :
    (l ++ l₂).getD i d = l.getD i d := by
  induction l generalizing i with
  | nil => simp at h
  | cons x xs ih =>
    cases i with
    | zero => rfl
    | succ n =>
      have := ih n (by simpa using h)
      simpa [List.getD_cons_succ] using this

theorem getD_append_len {α : Type} (l : List α) (u d : α) :
    (l ++ [u]).getD l.length d = u := by
  induction l with
  | nil => rfl
  | cons x xs ih => simp [List.getD_cons_succ, ih]

theorem getD_eraseIdx {α : Type} (l : List α) (k i : Nat) (d : α) :
    (l.eraseIdx k).getD i d = if i < k then l.getD i d else l.getD (i + 1) d := by
  induction l generalizing k i with
  | nil => cases i <;> simp [List.eraseIdx]
  | cons x xs ih =>
    cases k with
    | zero => simp [List.eraseIdx, List.getD_cons_succ]
    | succ n =>
      cases i with
      | zero => simp [List.eraseIdx]
      | succ m =>
        have := ih n m
        simp only [List.eraseIdx, List.getD_cons_succ, Nat.succ_lt_succ_iff]
        exact this

theorem getD_mem {α : Type} (l : List α) (i : Nat) (d : α) (h : i < l.length) :
    l.getD i d ∈ l := by
  rw [List.getD_eq_getElem?_getD, List.getElem?_eq_getElem h]
  exact List.getElem_mem h

theorem all_eq_true_iff_getD {α : Type} (l : List α) (p : α → Bool) (d : α) :
    l.all p = true ↔ ∀ i, i < l.length → p (l.getD i d) = true := by
  induction l with
  | nil => simp
  | cons x xs ih =>
    rw [List.all_cons, Bool.and_eq_true_iff, ih]
    constructor
    · rintro ⟨hx, hall⟩ i hi
      cases i with
      | zero => exact hx
      | succ n => exact hall n (by simpa using hi)
    · intro h
      refine ⟨h 0 (by simp), fun i hi => ?_⟩
      have := h (i + 1) (by simpa using hi)
      simpa [List.getD_cons_succ] using this

theorem findIndexAux_some {p : User → Bool} {l : List User} {i : Nat}
    (h : findIndexAux p l = some i) :
    i < l.length ∧ p (l.getD i User.undef) = true := by
  induction l generalizing i with
  | nil => simp [findIndexAux] at h
  | cons x xs ih =>
    by_cases hx : p x
    · simp [findIndexAux, hx] at h
      subst h
      simpa using hx
    · simp [findIndexAux, hx, Option.map_eq_some'] at h
      obtain ⟨j, hj, rfl⟩ := h
      obtain ⟨h1, h2⟩ := ih hj
      exact ⟨Nat.succ_lt_succ h1, by simpa [List.getD_cons_succ] using h2⟩

theorem findIndexAux_none {p : User → Bool} {l : List User} :
    findIndexAux p l = none ↔ ∀ x ∈ l, p x = false := by
  induction l with
  | nil => simp [findIndexAux]
  | cons x xs ih =>
    by_cases hx : p x <;> simp [findIndexAux, hx, ih]

theorem findIndexAux_append {p : User → Bool} {l l₂ : List User} {i : Nat}
    (h : findIndexAux p l = some i) :
    findIndexAux p (l ++ l₂) = some i := by
  induction l generalizing i with
  | nil => simp [findIndexAux] at h
  | cons x xs ih =>
    by_cases hx : p x
    · simpa [findIndexAux, hx] using h
    · simp [findIndexAux, hx, Option.map_eq_some'] at h ⊢
      obtain ⟨j, hj, rfl⟩ := h
      exact ⟨j, ih hj, rfl⟩

theorem someWithIndex_false {p : User → Nat → Bool} {l : List User} {start : Nat}
    (h : someWithIndex p l start = false) :
    ∀ i, i < l.length → p (l.getD i User.undef) (start + i) = false := by
  induction l generalizing start with
  | nil => intro i hi; simp at hi
  | cons x xs ih =>
    simp only [someWithIndex, Bool.or_eq_false_iff] at h
    obtain ⟨h1, h2⟩ := h
    intro i hi
    cases i with
    | zero => simpa using h1
    | succ m =>
      have hx := ih h2 m (by simpa using hi)
      have harith : start + 1 + m = start + (m + 1) := by omega
      rw [harith] at hx
      simpa [List.getD_cons_succ] using hx

theorem jsEq_symm (a b : JsValue) : jsEq a b = jsEq b a := by
  have numEq_symm : ∀ m n : JsNum, numEq m n = numEq n m := by
    intro m n
    cases m <;> cases n <;> simp [numEq]
    omega
  have beq_symm : ∀ s t : String, (s == t) = (t == s) := by
    intro s t
    by_cases h : s = t
    · simp [h]
    · simp [beq_eq_false_iff_ne, h, Ne.symm h]
  cases a <;> cases b <;> simp [jsEq, numEq_symm, beq_symm, eq_comm]

theorem set_getD_self {α : Type} (l : List α) (i : Nat) (d : α) (h : i < l.length) :
    l.set i (l.getD i d) = l := by
  induction l generalizing i with
  | nil => simp at h
  | cons x xs ih =>
    cases i with
    | zero => rfl
    | succ n =>
      have hx := ih n (by simpa using h)
      show x :: xs.set n ((x :: xs).getD (n + 1) d) = x :: xs
      rw [List.getD_cons_succ, hx]

theorem pairwiseDistinct_iff (l : List User) :
    pairwiseDistinct l = true ↔
      ∀ i j, i < j → j < l.length →
        jsEq (l.getD i User.undef).id (l.getD j User.undef).id = false ∧
        jsEq (l.getD i User.undef).email (l.getD j User.undef).email = false := by
  induction l with
  | nil => simp [pairwiseDistinct]
  | cons x xs ih =>
    rw [pairwiseDistinct, Bool.and_eq_true_iff, ih, all_eq_true_iff_getD _ _ User.undef]
    constructor
    · rintro ⟨hall, hrest⟩ i j hij hj
      cases j with
      | zero => omega
      | succ m =>
        cases i with
        | zero =>
          have := hall m (by simpa using hj)
          simp only [Bool.and_eq_true_iff, Bool.not_eq_true'] at this
          simpa [List.getD_cons_succ] using this
        | succ n =>
          have := hrest n m (by omega) (by simpa using hj)
          simpa [List.getD_cons_succ] using this
    · intro h
      constructor
      · intro i hi
        have hx := h 0 (i + 1) (by omega) (by simpa using hi)
        simp only [List.getD_cons_succ, List.getD_cons_zero] at hx
        simp only [Bool.and_eq_true, Bool.not_eq_true']
        exact hx
      · intro i j hij hj
        have := h (i + 1) (j + 1) (by omega) (by simpa using hj)
        simpa [List.getD_cons_succ] using this

theorem pairwiseDistinct_append (l : List User) (u : User)
    (hpd : pairwiseDistinct l = true)
    (hnew : ∀ x ∈ l, jsEq x.id u.id = false ∧ jsEq x.email u.email = false) :
    pairwiseDistinct (l ++ [u]) = true := by
  rw [pairwiseDistinct_iff] at hpd ⊢
  intro i j hij hj
  rw [List.length_append, List.length_singleton] at hj
  by_cases hjl : j < l.length
  · rw [getD_append_lt _ _ _ _ hjl, getD_append_lt _ _ _ _ (by omega)]
    exact hpd i j hij hjl
  · have hj_eq : j = l.length := by omega
    subst hj_eq
    rw [getD_append_len, getD_append_lt _ _ _ _ (by omega)]
    exact hnew _ (getD_mem _ _ _ (by omega))

theorem pairwiseDistinct_eraseIdx (l : List User) (k : Nat)
    (hpd : pairwiseDistinct l = true) :
    pairwiseDistinct (l.eraseIdx k) = true := by
  rw [pairwiseDistinct_iff] at hpd ⊢
  intro i j hij hj
  have hlen_le : (l.eraseIdx k).length ≤ l.length := l.length_eraseIdx_le k
  rw [getD_eraseIdx, getD_eraseIdx]
  by_cases hjk : j < k
  · rw [if_pos (by omega), if_pos hjk]
    exact hpd i j hij (by omega)
  · have hk : k < l.length := by omega
    have hlen : (l.eraseIdx k).length = l.length - 1 :=
      List.length_eraseIdx_of_lt hk
    rw [hlen] at hj
    by_cases hik : i < k
    · rw [if_pos hik, if_neg hjk]
      exact hpd i (j + 1) (by omega) (by omega)
    · rw [if_neg hik, if_neg hjk]
      exact hpd (i + 1) (j + 1) (by omega) (by omega)

theorem pairwiseDistinct_set (l : List User) (k : Nat) (u : User)
    (hpd : pairwiseDistinct l = true)
    (hid : u.id = (l.getD k User.undef).id)
    (hem : ∀ j, j < l.length → j ≠ k →
      jsEq (l.getD j User.undef).email u.email = false) :
    pairwiseDistinct (l.set k u) = true := by
  rw [pairwiseDistinct_iff] at hpd ⊢
  intro i j hij hj
  rw [List.length_set] at hj
  by_cases hik : i = k
  · subst hik
    have hkl : i < l.length := by omega
    rw [getD_set_self _ _ _ _ hkl, getD_set_ne _ _ _ _ _ (by omega)]
    constructor
    · rw [hid]
      exact (hpd i j hij hj).1
    · rw [jsEq_symm]
      exact hem j hj (by omega)
  · by_cases hjk : j = k
    · subst hjk
      have hkl : j < l.length := by omega
      rw [getD_set_self _ _ _ _ hkl, getD_set_ne _ _ _ _ _ (by omega)]
      constructor
      · rw [hid]
        exact (hpd i j hij hj).1
      · exact hem i (by omega) hik
    · rw [getD_set_ne _ _ _ _ _ (fun h => hjk h.symm),
        getD_set_ne _ _ _ _ _ (fun h => hik h.symm)]
      exact hpd i j hij hj

theorem locateUser_some {usersData : List User} {userId : JsValue} {i : Nat}
    (h : locateUser usersData userId = some i) :
    i < usersData.length ∧
      numEq (toNumber (usersData.getD i User.undef).id) (toNumber userId) = true :=
  findIndexAux_some h

theorem locateUser_isSome {usersData : List User} {userId : JsValue} {r : User}
    (hr : r ∈ usersData)
    (hmatch : numEq (toNumber r.id) (toNumber userId) = true) :
    ∃ i, locateUser usersData userId = some i := by
  cases hloc : locateUser usersData userId with
  | some i => exact ⟨i, rfl⟩
  | none =>
    have := findIndexAux_none.mp hloc r hr
    rw [hmatch] at this
    cases this

theorem locateUser_append {usersData : List User} (l₂ : List User)
    {userId : JsValue} {i : Nat}
    (h : locateUser usersData userId = some i) :
    locateUser (usersData ++ l₂) userId = some i :=
  findIndexAux_append h

theorem checkUserExists_false {usersData : List User} {id email : JsValue}
    (h : (checkUserExists usersData id email).existsFlag = false) :
    ∀ x ∈ usersData, jsEq x.id id = false ∧ jsEq x.email email = false := by
  intro x hx
  by_cases hany :
      usersData.any (fun user => jsEq user.id id || jsEq user.email email) = true
  · rw [checkUserExists, if_pos hany] at h
    cases h
  · have hall := List.any_eq_false.mp (Bool.not_eq_true _ ▸ hany)
    have := hall x hx
    simp only [Bool.or_eq_true, not_or, Bool.not_eq_true] at this
    exact this

theorem checkUserExists_true {usersData : List User} {id email : JsValue}
    (h : ∃ x ∈ usersData, jsEq x.id id = true ∨ jsEq x.email email = true) :
    checkUserExists usersData id email =
      ⟨true, some "User with this id or email already exists"⟩ := by
  obtain ⟨x, hx, hor⟩ := h
  have hany :
      usersData.any (fun user => jsEq user.id id || jsEq user.email email) = true :=
    List.any_eq_true.mpr ⟨x, hx, by rcases hor with h1 | h1 <;> simp [h1]⟩
  rw [checkUserExists, if_pos hany]

theorem checkEmailInUse_false {usersData : List User} {email : JsValue} {k : Nat}
    (h : (checkEmailInUse usersData email k).existsFlag = false) :
    ∀ j, j < usersData.length → j ≠ k →
      jsEq (usersData.getD j User.undef).email email = false := by
  intro j hj hjk
  by_cases hsome :
      someWithIndex (fun user idx => jsEq user.email email && !(idx == k))
        usersData 0 = true
  · rw [checkEmailInUse, if_pos hsome] at h
    cases h
  · have := someWithIndex_false (Bool.not_eq_true _ ▸ hsome) j hj
    rw [Nat.zero_add] at this
    simp only [Bool.and_eq_false_iff, Bool.not_eq_false', beq_iff_eq] at this
    rcases this with hc | hc
    · exact hc
    · exact absurd hc hjk

theorem createUser_success (usersData : List User) (body : User)
    (hval : (validateUserForCreation body).isValid = true)
    (hfresh : ∀ x ∈ usersData,
      jsEq x.id body.id = false ∧ jsEq x.email body.email = false) :
    createUser usersData body = .created (usersData ++ [body]) body := by
  have hany :
      usersData.any (fun user => jsEq user.id body.id || jsEq user.email body.email)
        = false := by
    rw [List.any_eq_false]
    intro x hx
    obtain ⟨h1, h2⟩ := hfresh x hx
    simp [h1, h2]
  simp [createUser, checkUserExists, hval, hany]

theorem createUser_created {usersData l' : List User} {body r : User}
    (h : createUser usersData body = .created l' r) :
    l' = usersData ++ [body] ∧ r = body ∧
      (checkUserExists usersData body.id body.email).existsFlag = false := by
  by_cases h1 : (validateUserForCreation body).isValid
  · by_cases h2 : (checkUserExists usersData body.id body.email).existsFlag
    · simp [createUser, h1, h2] at h
    · simp [createUser, h1, h2] at h
      exact ⟨h.1.symm, h.2.symm, Bool.not_eq_true _ ▸ h2⟩
  · simp [createUser, h1] at h

theorem deleteUser_deleted {usersData l' : List User} {userId : JsValue}
    {v : DeletedView} (h : deleteUser usersData userId = .deleted l' v) :
    ∃ userIndex, locateUser usersData userId = some userIndex ∧
      userIndex < usersData.length ∧
      l' = usersData.eraseIdx userIndex ∧
      v = ⟨(usersData.getD userIndex User.undef).id,
        (usersData.getD userIndex User.undef).name,
        (usersData.getD userIndex User.undef).email⟩ := by
  by_cases h1 : (validateUserId userId).isValid
  · cases hloc : locateUser usersData userId with
    | none => simp [deleteUser, h1, hloc] at h
    | some userIndex =>
      simp [deleteUser, h1, hloc] at h
      refine ⟨userIndex, rfl, (locateUser_some hloc).1, h.1.symm, ?_⟩
      simp only [List.getD_eq_getElem?_getD]
      exact h.2.symm
  · simp [deleteUser, h1] at h

theorem updateUser_updated {usersData l' : List User} {userId : JsValue}
    {body : UserUpdate} {r : User}
    (h : updateUser usersData userId body = .updated l' r) :
    ∃ userIndex, locateUser usersData userId = some userIndex ∧
      userIndex < usersData.length ∧
      ∃ u : User,
        l' = usersData.set userIndex u ∧ r = u ∧
        u.id = (usersData.getD userIndex User.undef).id ∧
        (u.email = (usersData.getD userIndex User.undef).email ∨
          ∀ j, j < usersData.length → j ≠ userIndex →
            jsEq (usersData.getD j User.undef).email u.email = false) := by
  by_cases hval : (validateUserForUpdate body).isValid
  case neg => simp [updateUser, hval] at h
  case pos =>
  cases hloc : locateUser usersData userId with
  | none => simp [updateUser, hval, hloc] at h
  | some userIndex =>
  have hlt : userIndex < usersData.length := (locateUser_some hloc).1
  obtain ⟨u1, hu1eq, hu1id, hu1em⟩ :
      ∃ u1, applyNameUpdate usersData userIndex body.name =
          usersData.set userIndex u1 ∧
        u1.id = (usersData.getD userIndex User.undef).id ∧
        u1.email = (usersData.getD userIndex User.undef).email := by
    by_cases hn : (body.name != JsValue.vUndefined) = true
    · exact ⟨{ usersData.getD userIndex User.undef with name := body.name },
        by rw [applyNameUpdate, if_pos hn], rfl, rfl⟩
    · refine ⟨usersData.getD userIndex User.undef, ?_, rfl, rfl⟩
      rw [applyNameUpdate, if_neg hn]
      exact (set_getD_self _ _ _ hlt).symm
  rw [updateUser] at h
  simp only [hval, Bool.not_true, Bool.false_eq_true, if_false, hloc, hu1eq] at h
  by_cases hc : (body.email != JsValue.vUndefined &&
      (checkEmailInUse (usersData.set userIndex u1) body.email
        userIndex).existsFlag) = true
  · rw [if_pos hc] at h
    cases h
  · rw [if_neg hc] at h
    obtain ⟨u2, hu2eq, hu2id, hu2em⟩ :
        ∃ u2, applyEmailUpdate (usersData.set userIndex u1) userIndex body.email =
            usersData.set userIndex u2 ∧ u2.id = u1.id ∧
          (u2.email = u1.email ∨
            ((body.email != JsValue.vUndefined) = true ∧ u2.email = body.email)) := by
      by_cases he : (body.email != JsValue.vUndefined) = true
      · refine ⟨{ u1 with email := body.email }, ?_, rfl, Or.inr ⟨he, rfl⟩⟩
        rw [applyEmailUpdate, if_pos he, getD_set_self _ _ _ _ hlt, List.set_set]
      · exact ⟨u1, by rw [applyEmailUpdate, if_neg he], rfl, Or.inl rfl⟩
    rw [hu2eq] at h
    obtain ⟨u3, hu3eq, hu3id, hu3em⟩ :
        ∃ u3, applyAgeUpdate (usersData.set userIndex u2) userIndex body.age =
            usersData.set userIndex u3 ∧ u3.id = u2.id ∧ u3.email = u2.email := by
      by_cases ha : (body.age != JsValue.vUndefined) = true
      · refine ⟨{ u2 with age := body.age }, ?_, rfl, rfl⟩
        rw [applyAgeUpdate, if_pos ha, getD_set_self _ _ _ _ hlt, List.set_set]
      · exact ⟨u2, by rw [applyAgeUpdate, if_neg ha], rfl, rfl⟩
    rw [hu3eq, getD_set_self _ _ _ _ hlt] at h
    injection h with h1 h2
    refine ⟨userIndex, rfl, hlt, u3, h1.symm, h2.symm, by rw [hu3id, hu2id, hu1id], ?_⟩
    rcases hu2em with he2 | ⟨hbe, he2⟩
    · exact Or.inl (by rw [hu3em, he2, hu1em])
    · refine Or.inr (fun j hj hjk => ?_)
      have hcf : (checkEmailInUse (usersData.set userIndex u1) body.email
          userIndex).existsFlag = false := by
        rcases Bool.and_eq_false_iff.mp (Bool.not_eq_true _ ▸ hc) with hx | hx
        · rw [hbe] at hx
          cases hx
        · exact hx
      have := checkEmailInUse_false hcf j (by rwa [List.length_set]) hjk
      rw [getD_set_ne _ _ _ _ _ (fun hu => hjk hu.symm)] at this
      rw [hu3em, he2]
      exact this

theorem validateName_valid_iff (name : JsValue) :
    (validateName name).isValid = true ↔
      ∃ s, name = JsValue.vStr s ∧ ¬((trimChars s.data).length < 2) := by
  cases name with
  | vStr s =>
    rw [validateName]
    split
    next hlen => simp [hlen]
    next hlen => simp [hlen]; omega
  | vNum n => simp [validateName]
  | vBool b => simp [validateName]
  | vNull => simp [validateName]
  | vUndefined => simp [validateName]

theorem validateEmail_valid_iff (email : JsValue) :
    (validateEmail email).isValid = true ↔
      ∃ s, email = JsValue.vStr s ∧ emailRegexTest s = true := by
  cases email with
  | vStr s =>
    rw [validateEmail]
    split
    next hr => simp [hr]
    next hr => simp [hr]
  | vNum n => simp [validateEmail]
  | vBool b => simp [validateEmail]
  | vNull => simp [validateEmail]
  | vUndefined => simp [validateEmail]

theorem validateAge_valid_iff (age : JsValue) :
    (validateAge age).isValid = true ↔
      ∃ n, age = JsValue.vNum n ∧ jsLe n (.int 0) = false := by
  cases age with
  | vNum n =>
    rw [validateAge]
    split
    next hle => simp [hle]
    next hle => simp [Bool.not_eq_true _ ▸ hle]
  | vStr s => simp [validateAge]
  | vBool b => simp [validateAge]
  | vNull => simp [validateAge]
  | vUndefined => simp [validateAge]

theorem validateUserId_nan {id : JsValue} (hnan : toNumber id = .nan) :
    (validateUserId id).isValid = false := by
  by_cases hg : (!truthy id || (!isString id && !isNumber id)) = true
  · simp [validateUserId, hg]
  · simp [validateUserId, hg, hnan]

/-! ## Claim theorems -/

/-- C1, counterexample: with a collection containing the literal string
id "abc" and the request id "abc" (whose `Number()` coercion is `NaN`),
Delete does not return NotFound: `validateUserId` rejects it up front
with the InvalidInput error, refuting the claim that such a Delete
always returns NotFound. -/
theorem delete_nan_id_notfound_cex :
    toNumber (JsValue.vStr "abc") = JsNum.nan ∧
    (∃ x ∈ [abcUser], jsEq x.id (JsValue.vStr "abc") = true) ∧
    deleteUser [abcUser] (JsValue.vStr "abc") =
      DeleteResult.badRequest "User ID must be a valid positive number" ∧
    deleteUser [abcUser] (JsValue.vStr "abc") ≠ DeleteResult.notFound := by
  decide

/-- C1 (amended): for every collection and every id whose `Number()`
coercion is `NaN`, Delete is rejected by `validateUserId` with an
InvalidInput error before any lookup; it never returns NotFound and
never deletes, regardless of whether a record with that literal id
string exists. -/
theorem delete_nan_id_rejected (usersData : List User) (userId : JsValue)
    (hnan : toNumber userId = JsNum.nan) :
    deleteUser usersData userId =
      DeleteResult.badRequest ((validateUserId userId).error.getD "") ∧
    deleteUser usersData userId ≠ DeleteResult.notFound ∧
    ∀ l' v, deleteUser usersData userId ≠ DeleteResult.deleted l' v := by
  have hinv := validateUserId_nan hnan
  refine ⟨?_, ?_, ?_⟩ <;> simp [deleteUser, hinv]

/-- C1, witness for the amended theorem at a concrete input. -/
theorem delete_nan_id_rejected_witness :
    toNumber (JsValue.vStr "xyz") = JsNum.nan ∧
    deleteUser [alice] (JsValue.vStr "xyz") ≠ DeleteResult.notFound :=
  ⟨by decide,
    (delete_nan_id_rejected [alice] (JsValue.vStr "xyz") (by decide)).2.1⟩

/-- C2: a candidate that passes `validateUserForCreation` and whose id
and email strictly differ from every existing record's is appended at
the end of the collection (so the length grows by exactly one and all
prior records are kept in order) and the created record is returned. -/
theorem create_unique_appends (usersData : List User) (body : User)
    (hval : (validateUserForCreation body).isValid = true)
    (hfresh : ∀ x ∈ usersData,
      jsEq x.id body.id = false ∧ jsEq x.email body.email = false) :
    createUser usersData body = .created (usersData ++ [body]) body :=
  createUser_success usersData body hval hfresh

/-- C2, witness at a concrete input. -/
theorem create_unique_appends_witness :
    (validateUserForCreation bob).isValid = true ∧
    createUser [alice] bob = .created ([alice] ++ [bob]) bob :=
  ⟨by decide, create_unique_appends [alice] bob (by decide) (by decide)⟩

/-- C3: a valid candidate whose id or email strictly equals an existing
record's is rejected with the duplicate error and the stored collection
is unchanged. -/
theorem create_duplicate_conflict (usersData : List User) (body : User)
    (hval : (validateUserForCreation body).isValid = true)
    (hdup : ∃ x ∈ usersData,
      jsEq x.id body.id = true ∨ jsEq x.email body.email = true) :
    createUser usersData body =
      .conflict "User with this id or email already exists" ∧
    collectionAfterCreate usersData body = usersData := by
  have hex := checkUserExists_true hdup
  have hcre : createUser usersData body =
      .conflict "User with this id or email already exists" := by
    simp [createUser, hval, hex]
  exact ⟨hcre, by simp [collectionAfterCreate, hcre]⟩

/-- C3, witness at a concrete input (fresh email, duplicate id). -/
theorem create_duplicate_conflict_witness :
    createUser [alice]
        ⟨.vNum (.int 1), .vStr "Mallory", .vStr "m@mail.com", .vNum (.int 20)⟩ =
      .conflict "User with this id or email already exists" ∧
    collectionAfterCreate [alice]
        ⟨.vNum (.int 1), .vStr "Mallory", .vStr "m@mail.com", .vNum (.int 20)⟩ =
      [alice] :=
  create_duplicate_conflict [alice]
    ⟨.vNum (.int 1), .vStr "Mallory", .vStr "m@mail.com", .vNum (.int 20)⟩
    (by decide) (by decide)

/-- C4: updating with a partial that carries only a valid name replaces
exactly the located record's name (its email and age and every other
record are untouched, as the single `List.set` with a name-only record
update shows), and when no record's id numerically matches the
requested id the update is NotFound. -/
theorem update_name_only (usersData : List User) (userId nm : JsValue)
    (hname : (validateName nm).isValid = true) :
    (∀ idx, locateUser usersData userId = some idx →
      updateUser usersData userId ⟨nm, .vUndefined, .vUndefined⟩ =
        .updated
          (usersData.set idx { usersData.getD idx User.undef with name := nm })
          { usersData.getD idx User.undef with name := nm }) ∧
    (locateUser usersData userId = none →
      updateUser usersData userId ⟨nm, .vUndefined, .vUndefined⟩ = .notFound) := by
  obtain ⟨s, hnm, hlen⟩ := (validateName_valid_iff nm).mp hname
  subst hnm
  have hval : validateUserForUpdate ⟨JsValue.vStr s, .vUndefined, .vUndefined⟩ =
      ⟨true, none⟩ := by
    simp [validateUserForUpdate, hname]
  constructor
  · intro idx hidx
    have hlt := (locateUser_some hidx).1
    simp [updateUser, hval, hidx, applyNameUpdate, applyEmailUpdate,
      applyAgeUpdate, getD_set_self, hlt]
  · intro hnone
    simp [updateUser, hval, hnone]

/-- C4, witness at a concrete input (both halves). -/
theorem update_name_only_witness :
    updateUser [alice] (JsValue.vStr "1") ⟨.vStr "Jo", .vUndefined, .vUndefined⟩ =
      .updated [⟨alice.id, .vStr "Jo", alice.email, alice.age⟩]
        ⟨alice.id, .vStr "Jo", alice.email, alice.age⟩ ∧
    updateUser [alice] (JsValue.vStr "2") ⟨.vStr "Jo", .vUndefined, .vUndefined⟩ =
      .notFound :=
  ⟨(update_name_only [alice] (JsValue.vStr "1") (.vStr "Jo") (by decide)).1 0
      (by decide),
   (update_name_only [alice] (JsValue.vStr "2") (.vStr "Jo") (by decide)).2
      (by decide)⟩

/-- C5: deleting by a valid id that numerically matches a record
removes exactly that record (`List.eraseIdx`, which keeps the relative
order of the remainder and shrinks the length by one) and returns the
reduced `{id, name, email}` view of it — `DeletedView` carries no age
field. -/
theorem delete_existing_removes_one (usersData : List User) (userId : JsValue)
    (idx : Nat)
    (hid : (validateUserId userId).isValid = true)
    (hloc : locateUser usersData userId = some idx) :
    deleteUser usersData userId =
      .deleted (usersData.eraseIdx idx)
        ⟨(usersData.getD idx User.undef).id,
          (usersData.getD idx User.undef).name,
          (usersData.getD idx User.undef).email⟩ ∧
    (usersData.eraseIdx idx).length + 1 = usersData.length := by
  have hlt := (locateUser_some hloc).1
  refine ⟨by simp [deleteUser, hid, hloc], ?_⟩
  rw [List.length_eraseIdx_of_lt hlt]
  omega

/-- C5, witness at a concrete input. -/
theorem delete_existing_removes_one_witness :
    deleteUser [alice, bob] (JsValue.vNum (.int 2)) =
      .deleted [alice] ⟨bob.id, bob.name, bob.email⟩ ∧
    ([alice, bob].eraseIdx 1).length + 1 = [alice, bob].length :=
  ⟨(delete_existing_removes_one [alice, bob] (JsValue.vNum (.int 2)) 1
      (by decide) (by decide)).1,
   (delete_existing_removes_one [alice, bob] (JsValue.vNum (.int 2)) 1
      (by decide) (by decide)).2⟩

/-- C6: if no two records of the collection share an id or an email
(strict equality), the collection written back by any successful
Create, Update or Delete again has no two records sharing an id or an
email. -/
theorem ops_preserve_distinctness (usersData : List User)
    (hpd : pairwiseDistinct usersData = true) :
    (∀ body l' r, createUser usersData body = .created l' r →
      pairwiseDistinct l' = true) ∧
    (∀ userId body l' r, updateUser usersData userId body = .updated l' r →
      pairwiseDistinct l' = true) ∧
    (∀ userId l' v, deleteUser usersData userId = .deleted l' v →
      pairwiseDistinct l' = true) := by
  refine ⟨?_, ?_, ?_⟩
  · intro body l' r h
    obtain ⟨hl, _, hex⟩ := createUser_created h
    subst hl
    exact pairwiseDistinct_append _ _ hpd (fun x hx => checkUserExists_false hex x hx)
  · intro userId body l' r h
    obtain ⟨idx, _, hlt, u, hl, _, hid, hemail⟩ := updateUser_updated h
    subst hl
    refine pairwiseDistinct_set _ _ _ hpd hid ?_
    intro j hj hjk
    rcases hemail with he | he
    · rw [he]
      have hpairs := (pairwiseDistinct_iff _).mp hpd
      rcases Nat.lt_or_ge j idx with hlt2 | hge
      · exact (hpairs j idx hlt2 hlt).2
      · have hgt : idx < j := by omega
        rw [jsEq_symm]
        exact (hpairs idx j hgt hj).2
    · exact he j hj hjk
  · intro userId l' v h
    obtain ⟨idx, _, hlt, hl, _⟩ := deleteUser_deleted h
    subst hl
    exact pairwiseDistinct_eraseIdx _ _ hpd

/-- C6, witness at a concrete input (the Create case). -/
theorem ops_preserve_distinctness_witness :
    pairwiseDistinct [alice] = true ∧
    pairwiseDistinct ([alice] ++ [bob]) = true :=
  ⟨by decide,
    (ops_preserve_distinctness [alice] (by decide)).1 bob ([alice] ++ [bob]) bob
      (by decide)⟩

/-- C7: List rejects an empty or non-array collection with the 404
EmptyCollection error, rejects a non-empty collection in which some
record is missing (undefined or null) one of id, name, email, age with
the 500 MalformedRecord error, and otherwise returns the collection
unchanged. -/
theorem list_validation_cases :
    listUsers UsersData.nonArray = .rejected 404 "No users found" ∧
    listUsers (UsersData.arr []) = .rejected 404 "No users found" ∧
    (∀ users u, u ∈ users →
      (∃ f ∈ defaultRequiredFields, present (u.get f) = false) →
      listUsers (.arr users) = .rejected 500 "Invalid user data detected") ∧
    (∀ users, users ≠ [] →
      (∀ u ∈ users, ∀ f ∈ defaultRequiredFields, present (u.get f) = true) →
      listUsers (.arr users) = .okData (.arr users)) := by
  refine ⟨by decide, by decide, ?_, ?_⟩
  · rintro users u hu ⟨f, hf, hpf⟩
    have hlen : users.length ≠ 0 := by
      cases users with
      | nil => cases hu
      | cons x xs => simp
    have hall : (defaultRequiredFields.all fun field => present (u.get field))
        = false := by
      rcases hb : (defaultRequiredFields.all fun field => present (u.get field)) with _ | _
      · rfl
      · have := List.all_eq_true.mp hb f hf
        rw [hpf] at this
        cases this
    have hmem : u ∈ users.filter
        (fun user => !(defaultRequiredFields.all fun field => present (user.get field))) :=
      List.mem_filter.mpr ⟨hu, by simp [hall]⟩
    have hpos : 0 < (users.filter
        (fun user => !(defaultRequiredFields.all fun field =>
          present (user.get field)))).length :=
      List.length_pos.mpr (List.ne_nil_of_mem hmem)
    have hv : validateUsersData (.arr users) defaultRequiredFields =
        ⟨false, some "Invalid user data detected"⟩ := by
      simp [validateUsersData, hlen, hpos]
    have hne : ((some "Invalid user data detected" : Option String) ==
        some "No users found") = false := by decide
    simp [listUsers, hv, hne]
  · intro users hu hall
    have hlen : users.length ≠ 0 := by
      cases users with
      | nil => exact absurd rfl hu
      | cons x xs => simp
    have hfilter : users.filter
        (fun user => !(defaultRequiredFields.all fun field =>
          present (user.get field))) = [] := by
      rw [List.filter_eq_nil_iff]
      intro a ha
      have := List.all_eq_true.mpr (fun f hf => hall a ha f hf)
      simp [this]
    have hv : validateUsersData (.arr users) defaultRequiredFields =
        ⟨true, none⟩ := by
      simp [validateUsersData, hlen, hfilter]
    simp [listUsers, hv]

/-- C7, witness at concrete inputs (the two quantified halves). -/
theorem list_validation_cases_witness :
    listUsers (.arr [⟨.vNum (.int 1), .vStr "A", .vUndefined, .vNum (.int 3)⟩]) =
      .rejected 500 "Invalid user data detected" ∧
    listUsers (.arr [alice]) = .okData (.arr [alice]) :=
  ⟨list_validation_cases.2.2.1
      [⟨.vNum (.int 1), .vStr "A", .vUndefined, .vNum (.int 3)⟩]
      ⟨.vNum (.int 1), .vStr "A", .vUndefined, .vNum (.int 3)⟩ (by decide)
      ⟨Field.email, by decide, by decide⟩,
    list_validation_cases.2.2.2 [alice] (by decide) (by decide)⟩

/-- C8: `validateUserForCreation` runs required-fields, name, age,
email in that fixed order and returns the result of the first failing
check, `{isValid: true}` when all four pass. -/
theorem creation_validation_pipeline (userData : User) :
    validateUserForCreation userData =
      firstFailure [validateRequiredFields userData,
        validateName userData.name, validateAge userData.age,
        validateEmail userData.email] := by
  by_cases h1 : (validateRequiredFields userData).isValid = true <;>
    by_cases h2 : (validateName userData.name).isValid = true <;>
      by_cases h3 : (validateAge userData.age).isValid = true <;>
        by_cases h4 : (validateEmail userData.email).isValid = true <;>
          simp [validateUserForCreation, firstFailure, h1, h2, h3, h4]

/-- C9: a record whose id is a non-numeric string (its `Number()`
coercion is `NaN`) but with valid name, email and age passes
`validateRequiredFields` and `validateUserForCreation` — so it can be
created — while `validateUserId`, used by delete and get-by-id,
rejects that very id. -/
theorem creation_accepts_id_userid_rejects (s : String)
    (name email age : JsValue)
    (hnan : toNumber (JsValue.vStr s) = JsNum.nan)
    (hname : (validateName name).isValid = true)
    (hemail : (validateEmail email).isValid = true)
    (hage : (validateAge age).isValid = true) :
    (validateRequiredFields ⟨JsValue.vStr s, name, email, age⟩).isValid = true ∧
    (validateUserForCreation ⟨JsValue.vStr s, name, email, age⟩).isValid = true ∧
    (validateUserId (JsValue.vStr s)).isValid = false := by
  have hs : ¬(s = "") := by
    intro h0
    subst h0
    rw [(by decide : toNumber (JsValue.vStr "") = JsNum.int 0)] at hnan
    cases hnan
  obtain ⟨ns, hn_eq, hnlen⟩ := (validateName_valid_iff name).mp hname
  obtain ⟨es, he_eq, her⟩ := (validateEmail_valid_iff email).mp hemail
  obtain ⟨an, ha_eq, hale⟩ := (validateAge_valid_iff age).mp hage
  have hns : ¬(ns = "") := by
    intro h0
    subst h0
    exact hnlen (by decide)
  have hes : ¬(es = "") := by
    intro h0
    subst h0
    rw [(by decide : emailRegexTest "" = false)] at her
    cases her
  subst hn_eq he_eq ha_eq
  have hreq :
      (validateRequiredFields
        ⟨JsValue.vStr s, .vStr ns, .vStr es, .vNum an⟩).isValid = true := by
    simp [validateRequiredFields, truthy, isNumber, hs, hns, hes]
  refine ⟨hreq, ?_, validateUserId_nan hnan⟩
  simp [validateUserForCreation, hreq, hname, hage, hemail]

/-- C9, witness at a concrete input. -/
theorem creation_accepts_id_userid_rejects_witness :
    (validateUserForCreation
      ⟨.vStr "abc", .vStr "John", .vStr "a@b.c", .vNum (.int 30)⟩).isValid = true ∧
    (validateUserId (JsValue.vStr "abc")).isValid = false :=
  ⟨(creation_accepts_id_userid_rejects "abc" (.vStr "John") (.vStr "a@b.c")
      (.vNum (.int 30)) (by decide) (by decide) (by decide) (by decide)).2.1,
   (creation_accepts_id_userid_rejects "abc" (.vStr "John") (.vStr "a@b.c")
      (.vNum (.int 30)) (by decide) (by decide) (by decide) (by decide)).2.2⟩

/-- C10: when a record with numeric id `n` exists, a valid candidate
whose id is a string coercing to `n` (and whose id and email strictly
differ from every record's) is created — `checkUserExists` compares ids
strictly, and no number is strictly equal to the string id — after
which the collection holds two records with numerically equal ids, and
the shared locate step of Update and Delete resolves that id to the
same first matching index, inside the old part of the collection, both
before and after the append. -/
theorem create_string_id_numeric_shadow (usersData : List User) (body : User)
    (s : String) (n : Int)
    (hid : body.id = JsValue.vStr s)
    (hs : strToNum s = JsNum.int n)
    (hval : (validateUserForCreation body).isValid = true)
    (hnum : ∃ r ∈ usersData, r.id = JsValue.vNum (JsNum.int n))
    (hfresh : ∀ x ∈ usersData,
      jsEq x.id body.id = false ∧ jsEq x.email body.email = false) :
    createUser usersData body = .created (usersData ++ [body]) body ∧
    (∀ m : JsNum, jsEq (JsValue.vNum m) body.id = false) ∧
    (∀ userId : JsValue, toNumber userId = JsNum.int n →
      ∃ i, i < usersData.length ∧
        locateUser usersData userId = some i ∧
        locateUser (usersData ++ [body]) userId = some i ∧
        numEq (toNumber ((usersData ++ [body]).getD i User.undef).id)
          (toNumber userId) = true ∧
        numEq (toNumber body.id) (toNumber userId) = true) := by
  refine ⟨createUser_success usersData body hval hfresh, ?_, ?_⟩
  · intro m
    rw [hid]
    rfl
  · intro userId huid
    obtain ⟨r, hr, hrid⟩ := hnum
    have hmatch : numEq (toNumber r.id) (toNumber userId) = true := by
      rw [hrid, huid]
      simp [toNumber, numEq]
    obtain ⟨i, hi⟩ := locateUser_isSome hr hmatch
    have hlt := (locateUser_some hi).1
    have happ := locateUser_append [body] hi
    refine ⟨i, hlt, hi, happ, (locateUser_some happ).2, ?_⟩
    rw [hid, huid]
    simp [toNumber, hs, numEq]

/-- C10, witness at a concrete input. -/
theorem create_string_id_numeric_shadow_witness :
    createUser [eve5] bob5 = .created ([eve5] ++ [bob5]) bob5 ∧
    jsEq (JsValue.vNum (JsNum.int 5)) bob5.id = false :=
  ⟨(create_string_id_numeric_shadow [eve5] bob5 "5" 5 (by decide) (by decide)
      (by decide) (by decide) (by decide)).1,
   (create_string_id_numeric_shadow [eve5] bob5 "5" 5 (by decide) (by decide)
      (by decide) (by decide) (by decide)).2.1 (JsNum.int 5)⟩

end ExpressUsers
